import Mathlib

/-!
# Verification of the dist-fnf three-step SKU allocation engine

Shallow embedding of the core allocation pipeline of the `dist-fnf`
repository and proofs about its stated properties.

Embedded code:
* `modules/store_tier_system.py` (tier assignment, capacity limits, lookup),
* `logic4_oneStyle/modules/sku_classifier.py` (scarce/abundant classification),
* `modules/three_step_optimizer.py` (Step-1 MILP constraint set, Step-2 and
  Step-3 greedy fill passes, priority weighting, pipeline orchestration),
* `logic4_oneStyle/modules/coverage_optimizer.py` (Step-1 MILP with
  per-store limit constraints),
* `logic4_oneStyle/modules/integrated_optimizer.py`
  (`_get_sku_store_tier_info` fallback).

Modelling conventions: SKU and store identifiers are natural numbers;
Python dicts with `.get(key, 0)` defaults become total functions with
default 0; Python floats become rationals; the CBC solver is abstracted
as an arbitrary solution `sol` together with a success flag; the ambient
random source becomes explicit function parameters (one per draw site).
-/

namespace DistFNF

/-- Allocation map `(sku, store) → quantity`; models the Python dict
`final_allocation` whose lookups use `.get((i, j), 0)`. -/
abbrev Alloc := Nat → Nat → Nat

/-- Writes `final_allocation[(i, j)] = v` on an allocation map. -/
def setQty (a : Alloc) (i j v : Nat) : Alloc :=
  fun x y => if x = i ∧ y = j then v else a x y

/-- Sum of `f` over a list of keys; models Python
`sum(f(j) for j in l)`. -/
def sumOver (l : List Nat) (f : Nat → Nat) : Nat :=
  (l.map f).sum

/-! ## Store tier system (`modules/store_tier_system.py` and `config.py`) -/

/-- Reads `TIER_CONFIG[...]['max_sku_limit']`: 3 / 2 / 1. -/
def tierLimit (tier : String) : Nat :=
  if tier = "TIER_1_HIGH" then 3
  else if tier = "TIER_2_MEDIUM" then 2
  else 1

/-- Reads `TIER_CONFIG[...]['ratio']`: 0.3 / 0.2 / 0.5. -/
def tierRatioOf (tier : String) : ℚ :=
  if tier = "TIER_1_HIGH" then 3/10
  else if tier = "TIER_2_MEDIUM" then 2/10
  else 5/10

/-- Reads `TIER_CONFIG[...]['display']`. -/
def tierDisplay (tier : String) : String :=
  if tier = "TIER_1_HIGH" then "🥇 T1 (HIGH)"
  else if tier = "TIER_2_MEDIUM" then "🥈 T2 (MED)"
  else "🥉 T3 (LOW)"

/-- Models `StoreTierSystem.get_store_tier`: tier from rank index, with the
ratio thresholds 0.3 and 0.3+0.2 of `TIER_CONFIG`. -/
def getStoreTier (storeIndex totalStores : Nat) : String :=
  if (storeIndex : ℚ) < (totalStores : ℚ) * (3/10) then "TIER_1_HIGH"
  else if (storeIndex : ℚ) < (totalStores : ℚ) * (3/10 + 2/10) then "TIER_2_MEDIUM"
  else "TIER_3_LOW"

/-- Models `StoreTierSystem.create_store_allocation_limits`: the dict
`store_id → tier_limits[tier]`, read back with `.get(j, 0)`. -/
def createStoreAllocationLimits (stores : List Nat) : Nat → Nat :=
  fun j =>
    if j ∈ stores then tierLimit (getStoreTier (stores.indexOf j) stores.length)
    else 0

/-- The tier-info record returned by `get_store_tier_info`; the
`_get_sku_store_tier_info` fallback dict has no display entry, hence the
`Option`. -/
structure TierInfo where
  storeId : Nat
  tierName : String
  tierDisp : Option String
  maxSkuLimit : Nat
  ratioVal : ℚ
  deriving DecidableEq

/-- Models `StoreTierSystem.get_store_tier_info`: tier info for a store, raising
`ValueError` when the store is not in the ranked list. -/
def getStoreTierInfo (storeId : Nat) (stores : List Nat) : Except String TierInfo :=
  if storeId ∈ stores then
    let tname := getStoreTier (stores.indexOf storeId) stores.length
    .ok ⟨storeId, tname, some (tierDisplay tname), tierLimit tname, tierRatioOf tname⟩
  else
    .error ("매장 " ++ toString storeId ++ "를 찾을 수 없습니다")

/-- Models `IntegratedOptimizer._get_sku_store_tier_info`: wraps the lookup in
`try/except` and silently returns a default lowest-tier record on failure. -/
def getSkuStoreTierInfo (_sku storeId : Nat) (skuTargetStores : List Nat) : TierInfo :=
  match getStoreTierInfo storeId skuTargetStores with
  | .ok info => info
  | .error _ => ⟨storeId, "TIER_3_LOW", none, 1, 1/2⟩

/-! ## SKU classification (`logic4_oneStyle/modules/sku_classifier.py`) -/

/-- The relation tested inside `classify_skus`: same color and different
size, or different color and same size. -/
def relatedCS (colorOf sizeOf : Nat → Nat) (s i : Nat) : Bool :=
  (colorOf s = colorOf i ∧ sizeOf s ≠ sizeOf i) ∨
  (colorOf s ≠ colorOf i ∧ sizeOf s = sizeOf i)

/-- Computes `basic_scarce = [sku for sku, qty in A.items() if qty < num_target_stores]`. -/
def basicScarce (SKUs : List Nat) (A : Nat → Nat) (T : Nat) : List Nat :=
  SKUs.filter (fun i => A i < T)

/-- Models the `SKUClassifier.classify_skus` scarce side: one propagation pass over
`basic_scarce`, adding every other SKU related to a basic-scarce SKU
(the `extended_scarce` set, represented as a duplicate-free list). -/
def classifyScarce (SKUs : List Nat) (A : Nat → Nat) (colorOf sizeOf : Nat → Nat)
    (T : Nat) : List Nat :=
  (basicScarce SKUs A T).foldl
    (fun acc s =>
      acc ++ SKUs.filter (fun i => i ≠ s ∧ relatedCS colorOf sizeOf s i ∧ i ∉ acc))
    (basicScarce SKUs A T)

/-- Computes `abundant_skus = [sku for sku in SKUs if sku not in scarce_skus]`. -/
def classifyAbundant (SKUs : List Nat) (A : Nat → Nat) (colorOf sizeOf : Nat → Nat)
    (T : Nat) : List Nat :=
  SKUs.filter (fun i => i ∉ classifyScarce SKUs A colorOf sizeOf T)

/-- Modelled from the spec: one expansion step of the scarcity closure,
adding every SKU related to an already-scarce SKU. -/
def scarceClosureStep (SKUs : List Nat) (colorOf sizeOf : Nat → Nat)
    (S : List Nat) : List Nat :=
  S ++ SKUs.filter (fun i => i ∉ S ∧ S.any (fun s => relatedCS colorOf sizeOf s i))

/-- Modelled from the spec: `scarce = closure(basic_scarce)` under the
shares-color-differs-size / shares-size-differs-color relation, iterated
to a fixpoint (|SKUs| steps suffice). -/
def scarceClosure (SKUs : List Nat) (A : Nat → Nat) (colorOf sizeOf : Nat → Nat)
    (T : Nat) : List Nat :=
  (scarceClosureStep SKUs colorOf sizeOf)^[SKUs.length] (basicScarce SKUs A T)

/-! ## Priority weighting (`ThreeStepOptimizer._compute_mixed_weights`,
`_calculate_store_priorities`) -/

/-- The min-max normalisation `w` computed inside `_compute_mixed_weights`
for a nonempty store list `j0 :: rest`: `qmin`/`qmax` over the `QSUM`
values, `(QSUM[j] - qmin)/(qmax - qmin)` when `qmax > qmin`, else the
constant 1. -/
def minmaxW (j0 : Nat) (rest : List Nat) (QSUM : Nat → ℚ) : Nat → ℚ :=
  let qvals := (j0 :: rest).map QSUM
  let qmin := qvals.foldl min (QSUM j0)
  let qmax := qvals.foldl max (QSUM j0)
  if qmin < qmax then fun j => (QSUM j - qmin) / (qmax - qmin)
  else fun _ => 1

/-- Models `ThreeStepOptimizer._compute_mixed_weights`: blends the min-max
normalised volume with the random draw `r`; `min(q_vals)` raises
`ValueError` on an empty target list. -/
def computeMixedWeights (targets : List Nat) (QSUM r : Nat → ℚ) (alpha : ℚ) :
    Except String (Nat → ℚ) :=
  match targets with
  | [] => .error "min() arg is an empty sequence"
  | j0 :: rest =>
    .ok (fun j => (1 - alpha) * minmaxW j0 rest QSUM j + alpha * r j)

/-- Computes `alpha = max(0.0, min(1.0, float(priority_temperature)))`. -/
def clampTemp (t : ℚ) : ℚ := max 0 (min 1 t)

/-- Models `ThreeStepOptimizer._calculate_store_priorities`. -/
def calculateStorePriorities (targets : List Nat) (QSUM r : Nat → ℚ) (t : ℚ) :
    Except String (Nat → ℚ) :=
  computeMixedWeights targets QSUM r (clampTemp t)

/-! ## Greedy fill passes (`_step2_single_allocation`,
`_step3_remaining_allocation`) -/

/-- Stable descending insertion of a store into an already weight-sorted
list: the store goes after every store of weight ≥ its own. -/
def insertByWeightDesc (w : Nat → ℚ) (j : Nat) : List Nat → List Nat
  | [] => [j]
  | k :: rest => if w k < w j then j :: k :: rest else k :: insertByWeightDesc w j rest

/-- Models `weighted_stores.sort(key=lambda x: x[1], reverse=True)` followed by
iterating the store components: a stable descending sort by weight,
realised as a stable insertion sort (Python's sort is stable, and the
stable descending permutation is unique). -/
def sortStoresByWeight (w : Nat → ℚ) (l : List Nat) : List Nat :=
  l.foldl (fun acc j => insertByWeightDesc w j acc) []

/-- Inner loop of Step 2 over the priority-sorted unfilled stores:
break once `allocated_this_sku ≥ remaining_quantity`, skip stores at
their per-SKU limit, otherwise allocate one unit. -/
def step2Go (limits : Nat → Nat) (i : Nat) (rem : Int) :
    List Nat → Alloc → Nat → Alloc × Nat
  | [], a, cnt => (a, cnt)
  | j :: rest, a, cnt =>
    if rem ≤ (cnt : Int) then (a, cnt)
    else if limits j ≤ a i j then step2Go limits i rem rest a cnt
    else step2Go limits i rem rest (setQty a i j (a i j + 1)) (cnt + 1)

/-- Step-2 body for one SKU `i`: unfilled stores, remaining supply,
priority sort, then one unit per eligible store. -/
def step2Sku (targets : List Nat) (A limits : Nat → Nat) (w : Nat → ℚ)
    (a : Alloc) (i : Nat) : Alloc × Nat :=
  let unfilled := targets.filter (fun j => a i j == 0)
  if unfilled = [] then (a, 0)
  else
    let allocated := sumOver targets (a i)
    let rem : Int := (A i : Int) - (allocated : Int)
    if rem ≤ 0 then (a, 0)
    else step2Go limits i rem (sortStoresByWeight w unfilled) a 0

/-- Step-2 loop over all SKUs, accumulating `total_additional`. -/
def step2List (targets : List Nat) (A limits : Nat → Nat) (w : Nat → ℚ) :
    List Nat → Alloc → Alloc × Nat
  | [], a => (a, 0)
  | i :: rest, a =>
    let r1 := step2Sku targets A limits w a i
    let r2 := step2List targets A limits w rest r1.1
    (r2.1, r1.2 + r2.2)

/-- Inner loop of Step 3 over the priority-sorted eligible stores:
break once remaining supply is gone, skip stores without headroom,
otherwise allocate `min(remaining_quantity, available_capacity)`. -/
def step3Go (limits : Nat → Nat) (i : Nat) :
    List Nat → Alloc → Int → Alloc × Int
  | [], a, rem => (a, rem)
  | j :: rest, a, rem =>
    if rem ≤ 0 then (a, rem)
    else
      let avail : Int := (limits j : Int) - (a i j : Int)
      if avail ≤ 0 then step3Go limits i rest a rem
      else
        let q : Int := min rem avail
        step3Go limits i rest (setQty a i j (a i j + q.toNat)) (rem - q)

/-- Step-3 body for one SKU `i`: remaining supply, eligible stores with
headroom, priority sort, then greedy fill up to the tier cap. -/
def step3Sku (targets : List Nat) (A limits : Nat → Nat) (w : Nat → ℚ)
    (a : Alloc) (i : Nat) : Alloc × Nat :=
  let allocated := sumOver targets (a i)
  let rem : Int := (A i : Int) - (allocated : Int)
  if rem ≤ 0 then (a, 0)
  else
    let eligible := targets.filter (fun j => a i j < limits j)
    if eligible = [] then (a, 0)
    else
      let r1 := step3Go limits i (sortStoresByWeight w eligible) a rem
      (r1.1, (rem - r1.2).toNat)

/-- Step-3 loop over all SKUs, accumulating `total_additional`. -/
def step3List (targets : List Nat) (A limits : Nat → Nat) (w : Nat → ℚ) :
    List Nat → Alloc → Alloc × Nat
  | [], a => (a, 0)
  | i :: rest, a =>
    let r1 := step3Sku targets A limits w a i
    let r2 := step3List targets A limits w rest r1.1
    (r2.1, r1.2 + r2.2)

/-! ## Pipeline orchestration (`optimize_three_step`) -/

/-- Extraction of the Step-1 allocation from the solver values: the pairs
`(i, j)` with `i ∈ SKUs`, `j ∈ stores`, `j ∈ target_stores` and
`b[i][j].varValue > 0.5` get quantity 1. -/
def extractStep1Allocation (SKUs stores targets : List Nat)
    (sol : Nat → Nat → ℚ) : Alloc :=
  fun i j =>
    if i ∈ SKUs ∧ j ∈ stores ∧ j ∈ targets ∧ 1/2 < sol i j then 1 else 0

/-- The observable outcome of one pipeline run: overall status plus the
per-stage allocation snapshots and Step-2/3 additional-unit counts. -/
structure PipeResult where
  status : String
  finalAllocation : Alloc
  step1Allocation : Alloc
  afterStep2 : Alloc
  step2Additional : Nat
  step3Additional : Nat

/-- Models `ThreeStepOptimizer.optimize_three_step`, with the CBC solve
abstracted as a success flag `step1Ok` and a solution `sol`. A Step-1
failure returns the `failed` record; Steps 2 and 3 each recompute store
priorities (fresh random draws `r2`, `r3`) and then run the greedy
passes; an uncaught Python exception is modelled as `.error`. -/
def optimizeThreeStep (SKUs stores targets : List Nat) (A limits : Nat → Nat)
    (QSUM r2 r3 : Nat → ℚ) (t : ℚ) (step1Ok : Bool) (sol : Nat → Nat → ℚ) :
    Except String PipeResult :=
  if step1Ok then
    let a1 := extractStep1Allocation SKUs stores targets sol
    match calculateStorePriorities targets QSUM r2 t with
    | .error e => .error e
    | .ok w2 =>
      let s2 := step2List targets A limits w2 SKUs a1
      match calculateStorePriorities targets QSUM r3 t with
      | .error e => .error e
      | .ok w3 =>
        let s3 := step3List targets A limits w3 SKUs s2.1
        .ok ⟨"success", s3.1, a1, s2.1, s2.2, s3.2⟩
  else
    .ok ⟨"failed", fun _ _ => 0, fun _ _ => 0, fun _ _ => 0, 0, 0⟩

/-! ## Step-1 MILP constraint sets

A Step-1 "solution" is any assignment of values to the problem's
variables satisfying every constraint the code adds. The binary
assignment values are `b : Nat → Nat → Nat`; the auxiliary color/size
indicator and coverage variables are existentially quantified, exactly as
they are existentially solved for by the MILP backend. -/

/-- The distinct color (or size) codes of the modelled SKUs, in first
occurrence order — the keys of `color_sku_groups` / `size_sku_groups`. -/
def groupKeys (f : Nat → Nat) (SKUs : List Nat) : List Nat :=
  (SKUs.map f).dedup

/-- The SKUs of one color (or size) group. -/
def groupOf (f : Nat → Nat) (SKUs : List Nat) (c : Nat) : List Nat :=
  SKUs.filter (fun i => f i = c)

/-- Models `ThreeStepOptimizer._add_coverage_constraints_step1` plus the
variable bounds of `_create_coverage_variables`: for every target store,
per-group indicator constraints
`Σ_{sku ∈ g} b[sku][j] ≥ bin[g][j]` and
`Σ_{sku ∈ g} b[sku][j] ≤ |g| · bin[g][j]`, and the coverage variables
equal to the indicator sums, bounded by the group counts. -/
def step1CoverageCons (SKUs stores targets : List Nat) (colorOf sizeOf : Nat → Nat)
    (b cb sb : Nat → Nat → Nat) (cc sc : Nat → Nat) : Prop :=
  ∀ j ∈ stores, j ∈ targets →
    ((∀ c ∈ groupKeys colorOf SKUs,
        cb c j ≤ 1 ∧
        cb c j ≤ sumOver (groupOf colorOf SKUs c) (fun i => b i j) ∧
        sumOver (groupOf colorOf SKUs c) (fun i => b i j) ≤
          (groupOf colorOf SKUs c).length * cb c j) ∧
      cc j = sumOver (groupKeys colorOf SKUs) (fun c => cb c j) ∧
      cc j ≤ (groupKeys colorOf SKUs).length) ∧
    ((∀ c ∈ groupKeys sizeOf SKUs,
        sb c j ≤ 1 ∧
        sb c j ≤ sumOver (groupOf sizeOf SKUs c) (fun i => b i j) ∧
        sumOver (groupOf sizeOf SKUs c) (fun i => b i j) ≤
          (groupOf sizeOf SKUs c).length * sb c j) ∧
      sc j = sumOver (groupKeys sizeOf SKUs) (fun c => sb c j) ∧
      sc j ≤ (groupKeys sizeOf SKUs).length)

/-- The complete constraint set of the Step-1 MILP built by
`ThreeStepOptimizer._add_step1_constraints`: binary assignment variables
(for target stores only), the per-SKU supply constraints
`Σ_j b[i][j] ≤ A[i]`, and the coverage-linking constraints. The code
adds no per-store constraint. -/
def step1Feasible (SKUs stores targets : List Nat) (A : Nat → Nat)
    (colorOf sizeOf : Nat → Nat) (b : Nat → Nat → Nat) : Prop :=
  (∀ i ∈ SKUs, ∀ j ∈ targets, b i j ≤ 1) ∧
  (∀ i ∈ SKUs,
    sumOver (stores.filter (fun j => j ∈ targets)) (fun j => b i j) ≤ A i) ∧
  ∃ cb sb cc sc, step1CoverageCons SKUs stores targets colorOf sizeOf b cb sb cc sc

/-- Models `CoverageOptimizer._add_coverage_constraints`
(`logic4_oneStyle/modules/coverage_optimizer.py`): per target store and
color code `k ∈ K_s`, indicator constraints over
`idx_color = I_s ∩ {color = k}` (`Σ b ≥ covered`, each `b ≤ covered`),
`covered = 0` for empty groups, and coverage equal to the indicator sum
with the declared upper bound. -/
def covStep1CoverageCons (scarce stores targets dfSKUs : List Nat)
    (colorOf sizeOf : Nat → Nat) (K L : List Nat)
    (b ck sl : Nat → Nat → Nat) (cc sc : Nat → Nat) : Prop :=
  ∀ j ∈ stores, j ∈ targets →
    ((∀ k ∈ K,
        ck k j ≤ 1 ∧
        (let idx := (dfSKUs.filter (fun i => i ∈ scarce)).filter
            (fun i => colorOf i = k)
         if idx = [] then ck k j = 0
         else ck k j ≤ sumOver idx (fun i => b i j) ∧ ∀ i ∈ idx, b i j ≤ ck k j)) ∧
      cc j = sumOver K (fun k => ck k j) ∧ cc j ≤ K.length) ∧
    ((∀ k ∈ L,
        sl k j ≤ 1 ∧
        (let idx := (dfSKUs.filter (fun i => i ∈ scarce)).filter
            (fun i => sizeOf i = k)
         if idx = [] then sl k j = 0
         else sl k j ≤ sumOver idx (fun i => b i j) ∧ ∀ i ∈ idx, b i j ≤ sl k j)) ∧
      sc j = sumOver L (fun k => sl k j) ∧ sc j ≤ L.length)

/-- The complete constraint set of the Step-1 MILP built by
`CoverageOptimizer.optimize_coverage`: binary variables over scarce SKUs,
supply constraints, the per-store limit constraints of
`_add_store_limit_constraints`
(`Σ_{i ∈ scarce} b[i][j] ≤ store_allocation_limits[j]`), and the
coverage-linking constraints. -/
def covStep1Feasible (scarce stores targets dfSKUs : List Nat) (A : Nat → Nat)
    (colorOf sizeOf : Nat → Nat) (K L : List Nat) (limits : Nat → Nat)
    (b : Nat → Nat → Nat) : Prop :=
  (∀ i ∈ scarce, ∀ j ∈ targets, b i j ≤ 1) ∧
  (∀ i ∈ scarce,
    sumOver (stores.filter (fun j => j ∈ targets)) (fun j => b i j) ≤ A i) ∧
  (∀ j ∈ stores, j ∈ targets → sumOver scarce (fun i => b i j) ≤ limits j) ∧
  ∃ ck sl cc sc,
    covStep1CoverageCons scarce stores targets dfSKUs colorOf sizeOf K L b ck sl cc sc

/-! ## Basic lemmas about allocation maps and sums -/

lemma setQty_ne (a : Alloc) {i j x y : Nat} (v : Nat) (h : ¬(x = i ∧ y = j)) :
    setQty a i j v x y = a x y := by
  simp [setQty, h]

lemma setQty_row (a : Alloc) (i j v y : Nat) :
    setQty a i j v i y = if y = j then v else a i y := by
  simp [setQty]

lemma le_setQty (a : Alloc) (i j v x y : Nat) (hv : a i j ≤ v) :
    a x y ≤ setQty a i j v x y := by
  by_cases h : x = i ∧ y = j
  · obtain ⟨rfl, rfl⟩ := h
    simpa [setQty] using hv
  · simp [setQty, h]

lemma sumOver_cons (x : Nat) (l : List Nat) (f : Nat → Nat) :
    sumOver (x :: l) f = f x + sumOver l f := by
  simp [sumOver]

lemma sumOver_congr {l : List Nat} {f : Nat → Nat} (g : Nat → Nat)
    (h : ∀ j ∈ l, f j = g j) :
    sumOver l f = sumOver l g := by
  unfold sumOver
  rw [List.map_congr_left h]

lemma sumOver_le {l : List Nat} {f g : Nat → Nat} (h : ∀ j ∈ l, f j ≤ g j) :
    sumOver l f ≤ sumOver l g :=
  List.sum_le_sum h

lemma sumOver_if_not_mem {l : List Nat} {j : Nat} (h : j ∉ l) (g : Nat → Nat) (v : Nat) :
    sumOver l (fun x => if x = j then v else g x) = sumOver l g :=
  sumOver_congr g (fun x hx => if_neg (by rintro rfl; exact h hx))

lemma sumOver_bump {l : List Nat} (hnd : l.Nodup) {j : Nat} (hj : j ∈ l)
    (g : Nat → Nat) (d : Nat) :
    sumOver l (fun x => if x = j then g j + d else g x) = sumOver l g + d := by
  induction l with
  | nil => cases hj
  | cons x t ih =>
    rcases List.mem_cons.mp hj with h | hjt
    · subst h
      have hnotin : j ∉ t := (List.nodup_cons.mp hnd).1
      rw [sumOver_cons, sumOver_cons, if_pos rfl, sumOver_if_not_mem hnotin]
      omega
    · have hx : x ≠ j := by
        rintro rfl
        exact (List.nodup_cons.mp hnd).1 hjt
      rw [sumOver_cons, sumOver_cons, if_neg hx,
        ih (List.nodup_cons.mp hnd).2 hjt]
      omega

/-! ## The priority sort is a permutation of its input -/

lemma insertByWeightDesc_perm (w : Nat → ℚ) (j : Nat) :
    ∀ l : List Nat, (insertByWeightDesc w j l).Perm (j :: l)
  | [] => List.Perm.refl _
  | k :: rest => by
    unfold insertByWeightDesc
    split
    · exact List.Perm.refl _
    · exact ((insertByWeightDesc_perm w j rest).cons k).trans
        (List.Perm.swap j k rest)

lemma sortStores_fold_perm (w : Nat → ℚ) :
    ∀ (l acc : List Nat),
      (l.foldl (fun acc j => insertByWeightDesc w j acc) acc).Perm (acc ++ l) := by
  intro l
  induction l with
  | nil => intro acc; simp
  | cons j t ih =>
    intro acc
    have h1 := ih (insertByWeightDesc w j acc)
    have h2 : (insertByWeightDesc w j acc ++ t).Perm (acc ++ j :: t) :=
      ((insertByWeightDesc_perm w j acc).append_right t).trans
        List.perm_middle.symm
    simpa using h1.trans h2

lemma sortStoresByWeight_perm (w : Nat → ℚ) (l : List Nat) :
    (sortStoresByWeight w l).Perm l := by
  simpa [sortStoresByWeight] using sortStores_fold_perm w l []

lemma mem_sortStoresByWeight {w : Nat → ℚ} {l : List Nat} {j : Nat} :
    j ∈ sortStoresByWeight w l ↔ j ∈ l :=
  (sortStoresByWeight_perm w l).mem_iff

/-! ## Invariants of the Step-2 inner loop -/

lemma step2Go_fst_other {limits : Nat → Nat} {i : Nat} {rem : Int}
    {x y : Nat} (hx : x ≠ i) :
    ∀ (l : List Nat) (a : Alloc) (cnt : Nat),
      (step2Go limits i rem l a cnt).1 x y = a x y := by
  intro l
  induction l with
  | nil => intro a cnt; rfl
  | cons j rest ih =>
    intro a cnt
    simp only [step2Go]
    split
    · rfl
    · split
      · exact ih a cnt
      · rw [ih]
        exact setQty_ne a _ (fun h => hx h.1)

lemma step2Go_fst_mono {limits : Nat → Nat} {i : Nat} {rem : Int} :
    ∀ (l : List Nat) (a : Alloc) (cnt : Nat) (x y : Nat),
      a x y ≤ (step2Go limits i rem l a cnt).1 x y := by
  intro l
  induction l with
  | nil => intro a cnt x y; exact le_refl _
  | cons j rest ih =>
    intro a cnt x y
    simp only [step2Go]
    split
    · exact le_refl _
    · split
      · exact ih a cnt x y
      · exact (le_setQty a i j _ x y (Nat.le_succ _)).trans (ih _ _ x y)

lemma step2Go_fst_le_max {limits : Nat → Nat} {i : Nat} {rem : Int} :
    ∀ (l : List Nat) (a : Alloc) (cnt : Nat) (y : Nat),
      (step2Go limits i rem l a cnt).1 i y ≤ max (a i y) (limits y) := by
  intro l
  induction l with
  | nil => intro a cnt y; exact le_max_left _ _
  | cons j rest ih =>
    intro a cnt y
    simp only [step2Go]
    split
    · exact le_max_left _ _
    · split
      · exact ih a cnt y
      · rename_i hlim
        refine (ih _ _ y).trans ?_
        by_cases hy : y = j
        · subst hy
          rw [setQty_row, if_pos rfl]
          exact max_le ((by omega : a i y + 1 ≤ limits y).trans (le_max_right _ _))
            (le_max_right _ _)
        · rw [setQty_row, if_neg hy]

lemma step2Go_cnt_le (limits : Nat → Nat) (i : Nat) (rem : Int) :
    ∀ (l : List Nat) (a : Alloc) (cnt : Nat),
      ((step2Go limits i rem l a cnt).2 : Int) ≤ max (cnt : Int) rem := by
  intro l
  induction l with
  | nil => intro a cnt; exact le_max_left _ _
  | cons j rest ih =>
    intro a cnt
    simp only [step2Go]
    split
    · exact le_max_left _ _
    · rename_i hbr
      split
      · exact (ih a cnt).trans (max_le_max_right _ (le_refl _)) |>.trans
          (max_le_max_right _ (le_refl _))
      · refine (ih _ (cnt + 1)).trans (max_le ?_ (le_max_right _ _))
        have : (cnt : Int) < rem := by omega
        exact (by push_cast; omega : ((cnt + 1 : Nat) : Int) ≤ rem).trans
          (le_max_right _ _)

lemma step2Go_sum {targets : List Nat} (hnd : targets.Nodup)
    (limits : Nat → Nat) (i : Nat) (rem : Int) :
    ∀ (l : List Nat), (∀ j ∈ l, j ∈ targets) → ∀ (a : Alloc) (cnt : Nat),
      sumOver targets ((step2Go limits i rem l a cnt).1 i) + cnt =
        sumOver targets (a i) + (step2Go limits i rem l a cnt).2 := by
  intro l
  induction l with
  | nil => intro _ a cnt; rfl
  | cons j rest ih =>
    intro hsub a cnt
    have hjt : j ∈ targets := hsub j (List.mem_cons_self j rest)
    have hrest : ∀ x ∈ rest, x ∈ targets := fun x hx => hsub x (List.mem_cons_of_mem j hx)
    simp only [step2Go]
    split
    · rfl
    · split
      · exact ih hrest a cnt
      · have hkey : sumOver targets ((setQty a i j (a i j + 1)) i) =
            sumOver targets (a i) + 1 := by
          rw [sumOver_congr (fun y => if y = j then a i j + 1 else a i y)
            (fun y _ => setQty_row a i j _ y)]
          exact sumOver_bump hnd hjt (a i) 1
        have := ih hrest (setQty a i j (a i j + 1)) (cnt + 1)
        omega

/-! ## Invariants of the Step-2 pass -/

lemma step2Sku_fst_other {targets : List Nat} {A limits : Nat → Nat} {w : Nat → ℚ}
    {a : Alloc} {i x y : Nat} (hx : x ≠ i) :
    (step2Sku targets A limits w a i).1 x y = a x y := by
  simp only [step2Sku]
  split
  · rfl
  · split
    · rfl
    · exact step2Go_fst_other hx _ a 0

lemma step2Sku_fst_mono {targets : List Nat} {A limits : Nat → Nat} {w : Nat → ℚ}
    (a : Alloc) (i x y : Nat) :
    a x y ≤ (step2Sku targets A limits w a i).1 x y := by
  simp only [step2Sku]
  split
  · exact le_refl _
  · split
    · exact le_refl _
    · exact step2Go_fst_mono _ a 0 x y

lemma step2Sku_fst_le_max {targets : List Nat} {A limits : Nat → Nat} {w : Nat → ℚ}
    (a : Alloc) (i x y : Nat) :
    (step2Sku targets A limits w a i).1 x y ≤ max (a x y) (limits y) := by
  by_cases hx : x = i
  · subst hx
    simp only [step2Sku]
    split
    · exact le_max_left _ _
    · split
      · exact le_max_left _ _
      · exact step2Go_fst_le_max _ a 0 y
  · rw [step2Sku_fst_other hx]
    exact le_max_left _ _

lemma step2Sku_sum {targets : List Nat} (hnd : targets.Nodup)
    {A limits : Nat → Nat} {w : Nat → ℚ} {a : Alloc} {i x : Nat}
    (h : sumOver targets (a x) ≤ A x) :
    sumOver targets ((step2Sku targets A limits w a i).1 x) ≤ A x := by
  by_cases hx : x = i
  · subst hx
    simp only [step2Sku]
    split
    · exact h
    · split
      · exact h
      · rename_i hrem
        have hsub : ∀ j ∈ sortStoresByWeight w
            (targets.filter (fun j => a x j == 0)), j ∈ targets := by
          intro j hj
          exact List.mem_of_mem_filter (mem_sortStoresByWeight.mp hj)
        have hsum := step2Go_sum hnd limits x
          ((A x : Int) - (sumOver targets (a x) : Int)) _ hsub a 0
        have hcnt := step2Go_cnt_le limits x
          ((A x : Int) - (sumOver targets (a x) : Int))
          (sortStoresByWeight w (targets.filter (fun j => a x j == 0))) a 0
        rw [max_eq_right (by omega)] at hcnt
        omega
  · rw [sumOver_congr (a x) (fun y _ => step2Sku_fst_other hx)]
    exact h

lemma step2List_fst_mono {targets : List Nat} {A limits : Nat → Nat} {w : Nat → ℚ} :
    ∀ (l : List Nat) (a : Alloc) (x y : Nat),
      a x y ≤ (step2List targets A limits w l a).1 x y := by
  intro l
  induction l with
  | nil => intro a x y; exact le_refl _
  | cons i rest ih =>
    intro a x y
    exact (step2Sku_fst_mono a i x y).trans (ih _ x y)

lemma step2List_fst_le_max {targets : List Nat} {A limits : Nat → Nat} {w : Nat → ℚ} :
    ∀ (l : List Nat) (a : Alloc) (x y : Nat),
      (step2List targets A limits w l a).1 x y ≤ max (a x y) (limits y) := by
  intro l
  induction l with
  | nil => intro a x y; exact le_max_left _ _
  | cons i rest ih =>
    intro a x y
    exact (ih _ x y).trans
      (max_le ((step2Sku_fst_le_max a i x y)) (le_max_right _ _))

lemma step2List_sum {targets : List Nat} (hnd : targets.Nodup)
    {A limits : Nat → Nat} {w : Nat → ℚ} :
    ∀ (l : List Nat) (a : Alloc), (∀ x, sumOver targets (a x) ≤ A x) →
      ∀ x, sumOver targets ((step2List targets A limits w l a).1 x) ≤ A x := by
  intro l
  induction l with
  | nil => intro a h x; exact h x
  | cons i rest ih =>
    intro a h x
    exact ih _ (fun z => step2Sku_sum hnd (h z)) x

/-! ## Invariants of the Step-3 inner loop and pass -/

lemma step3Go_fst_other {limits : Nat → Nat} {i : Nat} {x y : Nat} (hx : x ≠ i) :
    ∀ (l : List Nat) (a : Alloc) (rem : Int),
      (step3Go limits i l a rem).1 x y = a x y := by
  intro l
  induction l with
  | nil => intro a rem; rfl
  | cons j rest ih =>
    intro a rem
    simp only [step3Go]
    split
    · rfl
    · split
      · exact ih a rem
      · rw [ih]
        exact setQty_ne a _ (fun h => hx h.1)

lemma step3Go_fst_mono {limits : Nat → Nat} {i : Nat} :
    ∀ (l : List Nat) (a : Alloc) (rem : Int) (x y : Nat),
      a x y ≤ (step3Go limits i l a rem).1 x y := by
  intro l
  induction l with
  | nil => intro a rem x y; exact le_refl _
  | cons j rest ih =>
    intro a rem x y
    simp only [step3Go]
    split
    · exact le_refl _
    · split
      · exact ih a rem x y
      · exact (le_setQty a i j _ x y (Nat.le_add_right _ _)).trans (ih _ _ x y)

lemma step3Go_fst_le_max {limits : Nat → Nat} {i : Nat} :
    ∀ (l : List Nat) (a : Alloc) (rem : Int) (y : Nat),
      (step3Go limits i l a rem).1 i y ≤ max (a i y) (limits y) := by
  intro l
  induction l with
  | nil => intro a rem y; exact le_max_left _ _
  | cons j rest ih =>
    intro a rem y
    simp only [step3Go]
    split
    · exact le_max_left _ _
    · rename_i hrem
      split
      · exact ih a rem y
      · rename_i havail
        refine (ih _ _ y).trans ?_
        by_cases hy : y = j
        · subst hy
          rw [setQty_row, if_pos rfl]
          have hq : min rem ((limits y : Int) - (a i y : Int)) ≤
              (limits y : Int) - (a i y : Int) := min_le_right _ _
          refine max_le (?_ : a i y + (min rem ((limits y : Int) - (a i y : Int))).toNat ≤ _)
            (le_max_right _ _)
          refine le_trans (?_ : _ ≤ limits y) (le_max_right _ _)
          omega
        · rw [setQty_row, if_neg hy]

lemma step3Go_rem_nonneg (limits : Nat → Nat) (i : Nat) :
    ∀ (l : List Nat) (a : Alloc) (rem : Int), 0 ≤ rem →
      0 ≤ (step3Go limits i l a rem).2 := by
  intro l
  induction l with
  | nil => intro a rem h; exact h
  | cons j rest ih =>
    intro a rem h
    simp only [step3Go]
    split
    · exact h
    · rename_i hrem
      split
      · exact ih a rem h
      · refine ih _ _ ?_
        have : min rem ((limits j : Int) - (a i j : Int)) ≤ rem := min_le_left _ _
        omega

lemma step3Go_sum {targets : List Nat} (hnd : targets.Nodup)
    (limits : Nat → Nat) (i : Nat) :
    ∀ (l : List Nat), (∀ j ∈ l, j ∈ targets) → ∀ (a : Alloc) (rem : Int),
      (sumOver targets ((step3Go limits i l a rem).1 i) : Int) +
          (step3Go limits i l a rem).2 =
        (sumOver targets (a i) : Int) + rem := by
  intro l
  induction l with
  | nil => intro _ a rem; rfl
  | cons j rest ih =>
    intro hsub a rem
    have hjt : j ∈ targets := hsub j (List.mem_cons_self j rest)
    have hrest : ∀ x ∈ rest, x ∈ targets := fun x hx => hsub x (List.mem_cons_of_mem j hx)
    simp only [step3Go]
    split
    · rfl
    · rename_i hrem
      split
      · exact ih hrest a rem
      · rename_i havail
        have hkey : sumOver targets
            ((setQty a i j (a i j + (min rem ((limits j : Int) - (a i j : Int))).toNat)) i) =
            sumOver targets (a i) +
              (min rem ((limits j : Int) - (a i j : Int))).toNat := by
          rw [sumOver_congr (fun y =>
            if y = j then a i j + (min rem ((limits j : Int) - (a i j : Int))).toNat
            else a i y) (fun y _ => setQty_row a i j _ y)]
          exact sumOver_bump hnd hjt (a i) _
        have hrec := ih hrest
          (setQty a i j (a i j + (min rem ((limits j : Int) - (a i j : Int))).toNat))
          (rem - min rem ((limits j : Int) - (a i j : Int)))
        have hqpos : 0 ≤ min rem ((limits j : Int) - (a i j : Int)) := by
          have h1 : 0 < rem := by omega
          have h2 : 0 < (limits j : Int) - (a i j : Int) := by omega
          omega
        omega

lemma step3Sku_fst_other {targets : List Nat} {A limits : Nat → Nat} {w : Nat → ℚ}
    {a : Alloc} {i x y : Nat} (hx : x ≠ i) :
    (step3Sku targets A limits w a i).1 x y = a x y := by
  simp only [step3Sku]
  split
  · rfl
  · split
    · rfl
    · exact step3Go_fst_other hx _ a _

lemma step3Sku_fst_mono {targets : List Nat} {A limits : Nat → Nat} {w : Nat → ℚ}
    (a : Alloc) (i x y : Nat) :
    a x y ≤ (step3Sku targets A limits w a i).1 x y := by
  simp only [step3Sku]
  split
  · exact le_refl _
  · split
    · exact le_refl _
    · exact step3Go_fst_mono _ a _ x y

lemma step3Sku_fst_le_max {targets : List Nat} {A limits : Nat → Nat} {w : Nat → ℚ}
    (a : Alloc) (i x y : Nat) :
    (step3Sku targets A limits w a i).1 x y ≤ max (a x y) (limits y) := by
  by_cases hx : x = i
  · subst hx
    simp only [step3Sku]
    split
    · exact le_max_left _ _
    · split
      · exact le_max_left _ _
      · exact step3Go_fst_le_max _ a _ y
  · rw [step3Sku_fst_other hx]
    exact le_max_left _ _

lemma step3Sku_sum {targets : List Nat} (hnd : targets.Nodup)
    {A limits : Nat → Nat} {w : Nat → ℚ} {a : Alloc} {i x : Nat}
    (h : sumOver targets (a x) ≤ A x) :
    sumOver targets ((step3Sku targets A limits w a i).1 x) ≤ A x := by
  by_cases hx : x = i
  · subst hx
    simp only [step3Sku]
    split
    · exact h
    · split
      · exact h
      · rename_i hrem hne
        dsimp only
        have hsub : ∀ j ∈ sortStoresByWeight w
            (targets.filter (fun j => a x j < limits j)), j ∈ targets := by
          intro j hj
          exact List.mem_of_mem_filter (mem_sortStoresByWeight.mp hj)
        have hsum := step3Go_sum hnd limits x _ hsub a
          ((A x : Int) - (sumOver targets (a x) : Int))
        have hrem2 := step3Go_rem_nonneg limits x
          (sortStoresByWeight w (targets.filter (fun j => a x j < limits j))) a
          ((A x : Int) - (sumOver targets (a x) : Int)) (by omega)
        omega
  · rw [sumOver_congr (a x) (fun y _ => step3Sku_fst_other hx)]
    exact h

lemma step3List_fst_mono {targets : List Nat} {A limits : Nat → Nat} {w : Nat → ℚ} :
    ∀ (l : List Nat) (a : Alloc) (x y : Nat),
      a x y ≤ (step3List targets A limits w l a).1 x y := by
  intro l
  induction l with
  | nil => intro a x y; exact le_refl _
  | cons i rest ih =>
    intro a x y
    exact (step3Sku_fst_mono a i x y).trans (ih _ x y)

lemma step3List_fst_le_max {targets : List Nat} {A limits : Nat → Nat} {w : Nat → ℚ} :
    ∀ (l : List Nat) (a : Alloc) (x y : Nat),
      (step3List targets A limits w l a).1 x y ≤ max (a x y) (limits y) := by
  intro l
  induction l with
  | nil => intro a x y; exact le_max_left _ _
  | cons i rest ih =>
    intro a x y
    exact (ih _ x y).trans
      (max_le (step3Sku_fst_le_max a i x y) (le_max_right _ _))

lemma step3List_sum {targets : List Nat} (hnd : targets.Nodup)
    {A limits : Nat → Nat} {w : Nat → ℚ} :
    ∀ (l : List Nat) (a : Alloc), (∀ x, sumOver targets (a x) ≤ A x) →
      ∀ x, sumOver targets ((step3List targets A limits w l a).1 x) ≤ A x := by
  intro l
  induction l with
  | nil => intro a h x; exact h x
  | cons i rest ih =>
    intro a h x
    exact ih _ (fun z => step3Sku_sum hnd (h z)) x

/-! ## Pipeline destructuring and tier-limit facts -/

/-- Total allocated quantity over the modelled SKU-store grid (the sum of
all values of the allocation dict, whose keys lie in `SKUs × targets`). -/
def totalAlloc (SKUs targets : List Nat) (a : Alloc) : Nat :=
  sumOver SKUs (fun i => sumOver targets (a i))

lemma optimizeThreeStep_failed_elim {SKUs stores targets : List Nat}
    {A limits : Nat → Nat} {QSUM r2 r3 : Nat → ℚ} {t : ℚ}
    {sol : Nat → Nat → ℚ} {res : PipeResult}
    (hrun : optimizeThreeStep SKUs stores targets A limits QSUM r2 r3 t false sol =
      .ok res) :
    res = ⟨"failed", fun _ _ => 0, fun _ _ => 0, fun _ _ => 0, 0, 0⟩ := by
  unfold optimizeThreeStep at hrun
  simp only [Bool.false_eq_true, if_false, Except.ok.injEq] at hrun
  exact hrun.symm

lemma optimizeThreeStep_ok_elim {SKUs stores targets : List Nat}
    {A limits : Nat → Nat} {QSUM r2 r3 : Nat → ℚ} {t : ℚ}
    {sol : Nat → Nat → ℚ} {res : PipeResult}
    (hrun : optimizeThreeStep SKUs stores targets A limits QSUM r2 r3 t true sol =
      .ok res) :
    ∃ w2 w3 : Nat → ℚ,
      calculateStorePriorities targets QSUM r2 t = .ok w2 ∧
      calculateStorePriorities targets QSUM r3 t = .ok w3 ∧
      res.step1Allocation = extractStep1Allocation SKUs stores targets sol ∧
      res.afterStep2 = (step2List targets A limits w2 SKUs res.step1Allocation).1 ∧
      res.finalAllocation = (step3List targets A limits w3 SKUs res.afterStep2).1 ∧
      res.status = "success" := by
  unfold optimizeThreeStep at hrun
  simp only [if_true] at hrun
  cases h2 : calculateStorePriorities targets QSUM r2 t with
  | error e =>
    rw [h2] at hrun
    exact absurd hrun (by simp)
  | ok w2 =>
    rw [h2] at hrun
    cases h3 : calculateStorePriorities targets QSUM r3 t with
    | error e =>
      rw [h3] at hrun
      exact absurd hrun (by simp)
    | ok w3 =>
      rw [h3] at hrun
      simp only [Except.ok.injEq] at hrun
      refine ⟨w2, w3, rfl, rfl, ?_, ?_, ?_, ?_⟩ <;> rw [← hrun]

lemma one_le_tierLimit_getStoreTier (idx n : Nat) :
    1 ≤ tierLimit (getStoreTier idx n) := by
  unfold getStoreTier
  split
  · simp [tierLimit]
  · split
    · simp [tierLimit]
    · simp [tierLimit]

lemma one_le_createStoreAllocationLimits {stores : List Nat} {j : Nat}
    (hj : j ∈ stores) :
    1 ≤ createStoreAllocationLimits stores j := by
  unfold createStoreAllocationLimits
  rw [if_pos hj]
  exact one_le_tierLimit_getStoreTier _ _

lemma extractStep1Allocation_le_one (SKUs stores targets : List Nat)
    (sol : Nat → Nat → ℚ) (i j : Nat) :
    extractStep1Allocation SKUs stores targets sol i j = 0 ∨
      (extractStep1Allocation SKUs stores targets sol i j = 1 ∧ j ∈ targets) := by
  unfold extractStep1Allocation
  split
  · rename_i h
    exact Or.inr ⟨rfl, h.2.2.1⟩
  · exact Or.inl rfl

lemma sumOver_zero (l : List Nat) : sumOver l (fun _ => 0) = 0 := by
  induction l with
  | nil => rfl
  | cons x t ih => rw [sumOver_cons, ih]

/-- A concrete pipeline run used to witness the invariant theorems:
one SKU of supply 2, one target store with per-SKU limit 3. -/
def exARun : Except String PipeResult :=
  optimizeThreeStep [0] [0] [0] (fun _ => 2) (fun _ => 3) (fun _ => 1)
    (fun _ => 0) (fun _ => 0) 0 true (fun _ _ => 1)

/-- The result record of `exARun`. -/
def exARes : PipeResult :=
  match exARun with
  | .ok r => r
  | .error _ => ⟨"failed", fun _ _ => 0, fun _ _ => 0, fun _ _ => 0, 0, 0⟩

/-- A concrete pipeline run whose limits come from the tier system. -/
def exBRun : Except String PipeResult :=
  optimizeThreeStep [0] [0] [0] (fun _ => 2) (createStoreAllocationLimits [0])
    (fun _ => 1) (fun _ => 0) (fun _ => 0) 0 true (fun _ _ => 1)

/-- The result record of `exBRun`. -/
def exBRes : PipeResult :=
  match exBRun with
  | .ok r => r
  | .error _ => ⟨"failed", fun _ _ => 0, fun _ _ => 0, fun _ _ => 0, 0, 0⟩

/-- C2: Supply invariant — given that the extracted Step-1 snapshot
satisfies the Step-1 supply constraints, every allocation snapshot
produced by the pipeline (after Step 1, after Step 2, and after Step 3)
allocates, for every SKU, at most that SKU's supply in total over the
target stores. -/
theorem pipeline_supply_invariant (SKUs stores targets : List Nat)
    (A limits : Nat → Nat) (QSUM r2 r3 : Nat → ℚ) (t : ℚ) (ok : Bool)
    (sol : Nat → Nat → ℚ) (res : PipeResult)
    (hnd : targets.Nodup)
    (hsup : ∀ i, sumOver targets
      (extractStep1Allocation SKUs stores targets sol i) ≤ A i)
    (hrun : optimizeThreeStep SKUs stores targets A limits QSUM r2 r3 t ok sol =
      .ok res) :
    (∀ i, sumOver targets (res.step1Allocation i) ≤ A i) ∧
    (∀ i, sumOver targets (res.afterStep2 i) ≤ A i) ∧
    (∀ i, sumOver targets (res.finalAllocation i) ≤ A i) := by
  cases ok with
  | false =>
    have h := optimizeThreeStep_failed_elim hrun
    subst h
    simp [sumOver_zero]
  | true =>
    obtain ⟨w2, w3, h2, h3, e1, e2, e3, estat⟩ := optimizeThreeStep_ok_elim hrun
    have H1 : ∀ i, sumOver targets (res.step1Allocation i) ≤ A i := by
      intro i
      rw [e1]
      exact hsup i
    have H2 : ∀ i, sumOver targets (res.afterStep2 i) ≤ A i := by
      intro i
      rw [e2]
      exact step2List_sum hnd SKUs res.step1Allocation H1 i
    have H3 : ∀ i, sumOver targets (res.finalAllocation i) ≤ A i := by
      intro i
      rw [e3]
      exact step3List_sum hnd SKUs res.afterStep2 H2 i
    exact ⟨H1, H2, H3⟩

/-- Witness for C2: the hypotheses hold and the conclusion follows at a
concrete run (one SKU of supply 2, one target store, limit 3). -/
theorem pipeline_supply_invariant_witness :
    (([0] : List Nat).Nodup ∧
      (∀ i, sumOver [0]
        (extractStep1Allocation [0] [0] [0] (fun _ _ => 1) i) ≤ 2)) ∧
    ((∀ i, sumOver [0] (exARes.step1Allocation i) ≤ 2) ∧
      (∀ i, sumOver [0] (exARes.afterStep2 i) ≤ 2) ∧
      (∀ i, sumOver [0] (exARes.finalAllocation i) ≤ 2)) := by
  have hnd : ([0] : List Nat).Nodup := by decide
  have hsup : ∀ i, sumOver [0]
      (extractStep1Allocation [0] [0] [0] (fun _ _ => 1) i) ≤ 2 := by
    intro i
    simp only [sumOver, List.map_cons, List.map_nil, List.sum_cons, List.sum_nil,
      extractStep1Allocation]
    split <;> omega
  exact ⟨⟨hnd, hsup⟩,
    pipeline_supply_invariant [0] [0] [0] (fun _ => 2) (fun _ => 3) (fun _ => 1)
      (fun _ => 0) (fun _ => 0) 0 true (fun _ _ => 1) exARes hnd hsup rfl⟩

/-- C3: Tier-cap invariant — with the per-store limits produced by the
tier system, every allocation snapshot of the pipeline keeps every
(SKU, store) quantity at most that store's tier capacity. -/
theorem pipeline_tier_cap_invariant (SKUs stores targets : List Nat)
    (A : Nat → Nat) (QSUM r2 r3 : Nat → ℚ) (t : ℚ) (ok : Bool)
    (sol : Nat → Nat → ℚ) (res : PipeResult)
    (hrun : optimizeThreeStep SKUs stores targets A
      (createStoreAllocationLimits targets) QSUM r2 r3 t ok sol = .ok res) :
    (∀ i j, res.step1Allocation i j ≤ createStoreAllocationLimits targets j) ∧
    (∀ i j, res.afterStep2 i j ≤ createStoreAllocationLimits targets j) ∧
    (∀ i j, res.finalAllocation i j ≤ createStoreAllocationLimits targets j) := by
  cases ok with
  | false =>
    have h := optimizeThreeStep_failed_elim hrun
    subst h
    simp
  | true =>
    obtain ⟨w2, w3, h2, h3, e1, e2, e3, estat⟩ := optimizeThreeStep_ok_elim hrun
    have H1 : ∀ i j, res.step1Allocation i j ≤ createStoreAllocationLimits targets j := by
      intro i j
      rw [e1]
      rcases extractStep1Allocation_le_one SKUs stores targets sol i j with h | ⟨h, hj⟩
      · rw [h]; exact Nat.zero_le _
      · rw [h]; exact one_le_createStoreAllocationLimits hj
    have H2 : ∀ i j, res.afterStep2 i j ≤ createStoreAllocationLimits targets j := by
      intro i j
      rw [e2]
      exact (step2List_fst_le_max SKUs res.step1Allocation i j).trans
        (max_le (H1 i j) (le_refl _))
    have H3 : ∀ i j, res.finalAllocation i j ≤ createStoreAllocationLimits targets j := by
      intro i j
      rw [e3]
      exact (step3List_fst_le_max SKUs res.afterStep2 i j).trans
        (max_le (H2 i j) (le_refl _))
    exact ⟨H1, H2, H3⟩

/-- Witness for C3 at a concrete run with tier-derived limits. -/
theorem pipeline_tier_cap_invariant_witness :
    (∀ i j, exBRes.step1Allocation i j ≤ createStoreAllocationLimits [0] j) ∧
    (∀ i j, exBRes.afterStep2 i j ≤ createStoreAllocationLimits [0] j) ∧
    (∀ i j, exBRes.finalAllocation i j ≤ createStoreAllocationLimits [0] j) :=
  pipeline_tier_cap_invariant [0] [0] [0] (fun _ => 2) (fun _ => 1)
    (fun _ => 0) (fun _ => 0) 0 true (fun _ _ => 1) exBRes rfl

/-- C4: Monotonicity across stages — Step 2 and Step 3 never decrease any
(SKU, store) entry, and total allocated quantity is non-decreasing from
the Step-1 snapshot to the Step-2 snapshot to the final snapshot. -/
theorem pipeline_monotone (SKUs stores targets : List Nat)
    (A limits : Nat → Nat) (QSUM r2 r3 : Nat → ℚ) (t : ℚ) (ok : Bool)
    (sol : Nat → Nat → ℚ) (res : PipeResult)
    (hrun : optimizeThreeStep SKUs stores targets A limits QSUM r2 r3 t ok sol =
      .ok res) :
    (∀ i j, res.step1Allocation i j ≤ res.afterStep2 i j) ∧
    (∀ i j, res.afterStep2 i j ≤ res.finalAllocation i j) ∧
    totalAlloc SKUs targets res.step1Allocation ≤
      totalAlloc SKUs targets res.afterStep2 ∧
    totalAlloc SKUs targets res.afterStep2 ≤
      totalAlloc SKUs targets res.finalAllocation := by
  cases ok with
  | false =>
    have h := optimizeThreeStep_failed_elim hrun
    subst h
    simp
  | true =>
    obtain ⟨w2, w3, h2, h3, e1, e2, e3, estat⟩ := optimizeThreeStep_ok_elim hrun
    have H1 : ∀ i j, res.step1Allocation i j ≤ res.afterStep2 i j := by
      intro i j
      rw [e2]
      exact step2List_fst_mono SKUs res.step1Allocation i j
    have H2 : ∀ i j, res.afterStep2 i j ≤ res.finalAllocation i j := by
      intro i j
      rw [e3]
      exact step3List_fst_mono SKUs res.afterStep2 i j
    refine ⟨H1, H2, ?_, ?_⟩
    · exact sumOver_le (fun i _ => sumOver_le (fun j _ => H1 i j))
    · exact sumOver_le (fun i _ => sumOver_le (fun j _ => H2 i j))

/-- Witness for C4 at a concrete run. -/
theorem pipeline_monotone_witness :
    (∀ i j, exARes.step1Allocation i j ≤ exARes.afterStep2 i j) ∧
    (∀ i j, exARes.afterStep2 i j ≤ exARes.finalAllocation i j) ∧
    totalAlloc [0] [0] exARes.step1Allocation ≤
      totalAlloc [0] [0] exARes.afterStep2 ∧
    totalAlloc [0] [0] exARes.afterStep2 ≤
      totalAlloc [0] [0] exARes.finalAllocation :=
  pipeline_monotone [0] [0] [0] (fun _ => 2) (fun _ => 3) (fun _ => 1)
    (fun _ => 0) (fun _ => 0) 0 true (fun _ _ => 1) exARes rfl

/-- C5: Binarity after Step 1 — the allocation snapshot taken right after
Step 1 (built from the solver values by selecting the pairs with value
above 0.5 and giving them quantity 1) has every entry equal to 0 or 1. -/
theorem pipeline_step1_binary (SKUs stores targets : List Nat)
    (A limits : Nat → Nat) (QSUM r2 r3 : Nat → ℚ) (t : ℚ) (ok : Bool)
    (sol : Nat → Nat → ℚ) (res : PipeResult)
    (hrun : optimizeThreeStep SKUs stores targets A limits QSUM r2 r3 t ok sol =
      .ok res) :
    ∀ i j, res.step1Allocation i j = 0 ∨ res.step1Allocation i j = 1 := by
  cases ok with
  | false =>
    have h := optimizeThreeStep_failed_elim hrun
    subst h
    intro i j
    exact Or.inl rfl
  | true =>
    obtain ⟨w2, w3, h2, h3, e1, e2, e3, estat⟩ := optimizeThreeStep_ok_elim hrun
    intro i j
    rw [e1]
    rcases extractStep1Allocation_le_one SKUs stores targets sol i j with h | ⟨h, _⟩
    · exact Or.inl h
    · exact Or.inr h

/-- Witness for C5 at a concrete run, instantiated at SKU 0 and store 0. -/
theorem pipeline_step1_binary_witness :
    exARes.step1Allocation 0 0 = 0 ∨ exARes.step1Allocation 0 0 = 1 :=
  pipeline_step1_binary [0] [0] [0] (fun _ => 2) (fun _ => 3) (fun _ => 1)
    (fun _ => 0) (fun _ => 0) 0 true (fun _ _ => 1) exARes rfl 0 0

/-! ## Empty inputs, determinism, temperature clamping -/

/-- C7 counterexample: with an empty target-store set (and a nonempty SKU
set, with Step 1 reported successful), the pipeline does not return an
empty allocation with success status — Step 2's priority computation
raises `ValueError: min() arg is an empty sequence`. -/
theorem pipeline_empty_targets_raises :
    optimizeThreeStep [0] [] [] (fun _ => 1) (fun _ => 0) (fun _ => 1)
      (fun _ => 0) (fun _ => 0) 0 true (fun _ _ => 1) =
      .error "min() arg is an empty sequence" := rfl

/-- C7 amended: an empty SKU set (with a nonempty target set and a
successful Step-1 solve) yields a success status and an all-zero
allocation; an empty target-store set instead makes the priority
computation raise `ValueError` (min of an empty sequence), which
propagates out of the pipeline. -/
theorem pipeline_empty_input_behavior :
    (∀ (stores : List Nat) (j0 : Nat) (rest : List Nat) (A limits : Nat → Nat)
      (QSUM r2 r3 : Nat → ℚ) (t : ℚ) (sol : Nat → Nat → ℚ),
      ∃ res : PipeResult,
        optimizeThreeStep [] stores (j0 :: rest) A limits QSUM r2 r3 t true sol =
          .ok res ∧
        res.status = "success" ∧
        (∀ i j, res.finalAllocation i j = 0) ∧
        (∀ i j, res.step1Allocation i j = 0)) ∧
    (∀ (SKUs stores : List Nat) (A limits : Nat → Nat) (QSUM r2 r3 : Nat → ℚ)
      (t : ℚ) (sol : Nat → Nat → ℚ),
      optimizeThreeStep SKUs stores [] A limits QSUM r2 r3 t true sol =
        .error "min() arg is an empty sequence") := by
  constructor
  · intro stores j0 rest A limits QSUM r2 r3 t sol
    refine ⟨⟨"success", extractStep1Allocation [] stores (j0 :: rest) sol,
      extractStep1Allocation [] stores (j0 :: rest) sol,
      extractStep1Allocation [] stores (j0 :: rest) sol, 0, 0⟩, rfl, rfl, ?_, ?_⟩ <;>
    · intro i j
      simp [extractStep1Allocation]
  · intro SKUs stores A limits QSUM r2 r3 t sol
    rfl

/-- C8: Determinism at temperature zero — with `priority_temperature = 0`
the pipeline output does not depend on the random draws at all, and the
priority score of every store is exactly its min-max-normalised volume. -/
theorem temperature_zero_determinism :
    (∀ (SKUs stores targets : List Nat) (A limits : Nat → Nat)
      (QSUM r2 r3 r2x r3x : Nat → ℚ) (ok : Bool) (sol : Nat → Nat → ℚ),
      optimizeThreeStep SKUs stores targets A limits QSUM r2 r3 0 ok sol =
        optimizeThreeStep SKUs stores targets A limits QSUM r2x r3x 0 ok sol) ∧
    (∀ (j0 : Nat) (rest : List Nat) (QSUM r : Nat → ℚ),
      calculateStorePriorities (j0 :: rest) QSUM r 0 = .ok (minmaxW j0 rest QSUM)) := by
  have hclamp : clampTemp 0 = 0 := by
    unfold clampTemp
    norm_num
  have hcalc : ∀ (targets : List Nat) (QSUM r rx : Nat → ℚ),
      calculateStorePriorities targets QSUM r 0 =
        calculateStorePriorities targets QSUM rx 0 := by
    intro targets QSUM r rx
    unfold calculateStorePriorities computeMixedWeights
    cases targets with
    | nil => rfl
    | cons j0 rest =>
      dsimp only
      congr 1
      funext j
      rw [hclamp]
      ring
  constructor
  · intro SKUs stores targets A limits QSUM r2 r3 r2x r3x ok sol
    unfold optimizeThreeStep
    rw [hcalc targets QSUM r2 r2x, hcalc targets QSUM r3 r3x]
  · intro j0 rest QSUM r
    unfold calculateStorePriorities computeMixedWeights
    dsimp only
    congr 1
    funext j
    rw [hclamp]
    ring

/-- C10: Temperature clamping — the priority computation first clamps the
temperature to `max(0, min(1, t))`; the clamped value lies in `[0, 1]`;
for any temperature and a nonempty target list the computation succeeds;
and the whole pipeline behaves exactly as if the temperature had been the
clamped value. -/
theorem temperature_clamped :
    (∀ (targets : List Nat) (QSUM r : Nat → ℚ) (t : ℚ),
      calculateStorePriorities targets QSUM r t =
        computeMixedWeights targets QSUM r (max 0 (min 1 t))) ∧
    (∀ t : ℚ, 0 ≤ clampTemp t ∧ clampTemp t ≤ 1) ∧
    (∀ (j0 : Nat) (rest : List Nat) (QSUM r : Nat → ℚ) (t : ℚ),
      ∃ s : Nat → ℚ, calculateStorePriorities (j0 :: rest) QSUM r t = .ok s) ∧
    (∀ (SKUs stores targets : List Nat) (A limits : Nat → Nat)
      (QSUM r2 r3 : Nat → ℚ) (t : ℚ) (ok : Bool) (sol : Nat → Nat → ℚ),
      optimizeThreeStep SKUs stores targets A limits QSUM r2 r3 t ok sol =
        optimizeThreeStep SKUs stores targets A limits QSUM r2 r3 (clampTemp t) ok sol) := by
  have hbounds : ∀ t : ℚ, 0 ≤ clampTemp t ∧ clampTemp t ≤ 1 := by
    intro t
    unfold clampTemp
    constructor
    · exact le_max_left _ _
    · exact max_le zero_le_one (min_le_left _ _)
  have hidem : ∀ t : ℚ, clampTemp (clampTemp t) = clampTemp t := by
    intro t
    obtain ⟨h0, h1⟩ := hbounds t
    have hdef : clampTemp (clampTemp t) = max 0 (min 1 (clampTemp t)) := rfl
    rw [hdef, min_eq_right h1, max_eq_right h0]
  have hcalc : ∀ (targets : List Nat) (QSUM r : Nat → ℚ) (t : ℚ),
      calculateStorePriorities targets QSUM r t =
        calculateStorePriorities targets QSUM r (clampTemp t) := by
    intro targets QSUM r t
    unfold calculateStorePriorities
    rw [hidem]
  refine ⟨fun _ _ _ _ => rfl, hbounds, ?_, ?_⟩
  · intro j0 rest QSUM r t
    exact ⟨_, rfl⟩
  · intro SKUs stores targets A limits QSUM r2 r3 t ok sol
    unfold optimizeThreeStep
    rw [hcalc targets QSUM r2 t, hcalc targets QSUM r3 t]

/-! ## Scarcity classification -/

lemma mem_classifyScarce_fold (SKUs : List Nat) (colorOf sizeOf : Nat → Nat) :
    ∀ (l acc : List Nat) (x : Nat),
      x ∈ l.foldl (fun acc s => acc ++ SKUs.filter
          (fun i => i ≠ s ∧ relatedCS colorOf sizeOf s i ∧ i ∉ acc)) acc ↔
        x ∈ acc ∨ ∃ s ∈ l, x ∈ SKUs ∧ x ≠ s ∧ relatedCS colorOf sizeOf s x = true := by
  intro l
  induction l with
  | nil => intro acc x; simp
  | cons s t ih =>
    intro acc x
    rw [List.foldl_cons, ih]
    constructor
    · rintro (hx | ⟨sx, hsx, hrest⟩)
      · rw [List.mem_append] at hx
        rcases hx with hx | hx
        · exact Or.inl hx
        · simp only [List.mem_filter, decide_eq_true_eq] at hx
          exact Or.inr ⟨s, List.mem_cons_self s t, hx.1, hx.2.1, hx.2.2.1⟩
      · exact Or.inr ⟨sx, List.mem_cons_of_mem s hsx, hrest⟩
    · rintro (hx | ⟨sx, hsx, hxS, hxne, hrel⟩)
      · exact Or.inl (List.mem_append_left _ hx)
      · rcases List.mem_cons.mp hsx with h | hsxt
        · subst h
          by_cases hacc : x ∈ acc
          · exact Or.inl (List.mem_append_left _ hacc)
          · refine Or.inl (List.mem_append_right _ ?_)
            simp only [List.mem_filter, decide_eq_true_eq]
            exact ⟨hxS, hxne, hrel, hacc⟩
        · exact Or.inr ⟨sx, hsxt, hxS, hxne, hrel⟩

/-- C6 amended: the classifier's scarce set is exactly the basic-scarce
SKUs together with the SKUs related (same color different size, or same
size different color) to some basic-scarce SKU — a single propagation
pass, not a transitive closure — and the abundant set is the complement
inside the SKU list. -/
theorem classifySkus_one_pass (SKUs : List Nat) (A : Nat → Nat)
    (colorOf sizeOf : Nat → Nat) (T : Nat) (x : Nat) :
    (x ∈ classifyScarce SKUs A colorOf sizeOf T ↔
      (x ∈ SKUs ∧ A x < T) ∨
        ∃ s, (s ∈ SKUs ∧ A s < T) ∧ x ∈ SKUs ∧ x ≠ s ∧
          relatedCS colorOf sizeOf s x = true) ∧
    (x ∈ classifyAbundant SKUs A colorOf sizeOf T ↔
      x ∈ SKUs ∧ x ∉ classifyScarce SKUs A colorOf sizeOf T) := by
  constructor
  · unfold classifyScarce
    rw [mem_classifyScarce_fold]
    constructor
    · rintro (hb | ⟨sx, hsb, hrest⟩)
      · simp only [basicScarce, List.mem_filter, decide_eq_true_eq] at hb
        exact Or.inl hb
      · simp only [basicScarce, List.mem_filter, decide_eq_true_eq] at hsb
        exact Or.inr ⟨sx, hsb, hrest⟩
    · rintro (hb | ⟨sx, hsb, hrest⟩)
      · refine Or.inl ?_
        simp only [basicScarce, List.mem_filter, decide_eq_true_eq]
        exact hb
      · refine Or.inr ⟨sx, ?_, hrest⟩
        simp only [basicScarce, List.mem_filter, decide_eq_true_eq]
        exact hsb
  · unfold classifyAbundant
    simp only [List.mem_filter, decide_eq_true_eq]

/-- C6 counterexample: with SKUs 0 = (red, S, supply 2),
1 = (red, M, supply 50), 2 = (blue, M, supply 50) and 10 target stores,
SKU 2 belongs to the transitive closure of basic-scarce (via the scarce
SKU 1, which shares its size) but the classifier leaves it abundant: the
returned scarce set is not the closure. -/
theorem classifyScarce_misses_closure :
    2 ∈ scarceClosure [0, 1, 2] (fun i => if i = 0 then 2 else 50)
        (fun i => if i = 2 then 1 else 0) (fun i => if i = 0 then 0 else 1) 10 ∧
    2 ∉ classifyScarce [0, 1, 2] (fun i => if i = 0 then 2 else 50)
        (fun i => if i = 2 then 1 else 0) (fun i => if i = 0 then 0 else 1) 10 ∧
    2 ∈ classifyAbundant [0, 1, 2] (fun i => if i = 0 then 2 else 50)
        (fun i => if i = 2 then 1 else 0) (fun i => if i = 0 then 0 else 1) 10 := by
  refine ⟨?_, by decide, by decide⟩
  decide

/-! ## Tier lookup -/

/-- C9 amended: `StoreTierSystem.get_store_tier_info` does fail fast with
a descriptive `ValueError` for a store outside the ranked list, but
`IntegratedOptimizer._get_sku_store_tier_info` catches the error and
silently returns a default lowest-tier record (`TIER_3_LOW`,
`max_sku_limit` 1). -/
theorem tier_lookup_error_and_fallback :
    (∀ (storeId : Nat) (stores : List Nat), storeId ∉ stores →
      getStoreTierInfo storeId stores =
        .error ("매장 " ++ toString storeId ++ "를 찾을 수 없습니다")) ∧
    (∀ (sku storeId : Nat) (sts : List Nat), storeId ∉ sts →
      getSkuStoreTierInfo sku storeId sts = ⟨storeId, "TIER_3_LOW", none, 1, 1/2⟩) := by
  have h1 : ∀ (storeId : Nat) (stores : List Nat), storeId ∉ stores →
      getStoreTierInfo storeId stores =
        .error ("매장 " ++ toString storeId ++ "를 찾을 수 없습니다") := by
    intro s st h
    unfold getStoreTierInfo
    rw [if_neg h]
  refine ⟨h1, ?_⟩
  intro sku s st h
  unfold getSkuStoreTierInfo
  rw [h1 s st h]

/-- Witness for C9's amended theorem: store 5 is not among the ranked
stores `[1, 2]`; the direct lookup errors and the wrapped lookup returns
the silent lowest-tier default. -/
theorem tier_lookup_error_and_fallback_witness :
    (5 ∉ ([1, 2] : List Nat)) ∧
    getStoreTierInfo 5 [1, 2] =
      .error ("매장 " ++ toString 5 ++ "를 찾을 수 없습니다") ∧
    getSkuStoreTierInfo 0 5 [1, 2] = ⟨5, "TIER_3_LOW", none, 1, 1/2⟩ := by
  have h : 5 ∉ ([1, 2] : List Nat) := by decide
  exact ⟨h, tier_lookup_error_and_fallback.1 5 [1, 2] h,
    tier_lookup_error_and_fallback.2 0 5 [1, 2] h⟩

/-- C9 counterexample: looking up store 5 among ranked stores `[1, 2]`
through `_get_sku_store_tier_info` does not raise — it silently yields
the lowest tier (`TIER_3_LOW`, limit 1), even though the underlying
lookup is an error. -/
theorem sku_tier_lookup_silent_default :
    getSkuStoreTierInfo 0 5 [1, 2] = ⟨5, "TIER_3_LOW", none, 1, 1/2⟩ ∧
    getStoreTierInfo 5 [1, 2] =
      .error ("매장 " ++ toString 5 ++ "를 찾을 수 없습니다") :=
  ⟨rfl, rfl⟩

/-! ## Step-1 store-capacity constraint -/

/-- The Step-1 assignment used to refute the store-capacity claim: both
SKUs 0 and 1 are assigned to store 2. -/
def cexStep1B : Nat → Nat → Nat := fun i j => if i ≤ 1 ∧ j = 2 then 1 else 0

/-- C1 counterexample: in the `ThreeStepOptimizer` Step-1 MILP there is
no per-store capacity constraint. With SKUs `[0, 1]` (distinct colors,
one size, supply 5 each) and stores `[0, 1, 2]` ranked by the tier
system — store 2 is `TIER_3_LOW` with capacity 1 — the assignment
sending both SKUs to store 2 satisfies every Step-1 constraint yet marks
2 > 1 distinct SKUs at store 2. -/
theorem step1_store_capacity_not_enforced :
    ¬ (∀ b : Nat → Nat → Nat,
        step1Feasible [0, 1] [0, 1, 2] [0, 1, 2] (fun _ => 5) (fun i => i)
          (fun _ => 0) b →
        ∀ j ∈ ([0, 1, 2] : List Nat),
          sumOver [0, 1] (fun i => b i j) ≤ createStoreAllocationLimits [0, 1, 2] j) := by
  intro hclaim
  have hfeas : step1Feasible [0, 1] [0, 1, 2] [0, 1, 2] (fun _ => 5) (fun i => i)
      (fun _ => 0) cexStep1B := by
    refine ⟨by decide, by decide,
      fun c j => if j = 2 ∧ c ≤ 1 then 1 else 0,
      fun c j => if j = 2 ∧ c = 0 then 1 else 0,
      fun j => if j = 2 then 2 else 0,
      fun j => if j = 2 then 1 else 0, ?_⟩
    unfold step1CoverageCons
    decide
  have h2 := hclaim cexStep1B hfeas 2 (by decide)
  have hmem : (2 : Nat) ∈ ([0, 1, 2] : List Nat) := by decide
  have hlim : createStoreAllocationLimits [0, 1, 2] 2 = 1 := by
    show (if (2 : Nat) ∈ ([0, 1, 2] : List Nat)
      then tierLimit (getStoreTier (([0, 1, 2] : List Nat).indexOf 2) 3)
      else 0) = 1
    rw [if_pos hmem]
    show tierLimit (getStoreTier 2 3) = 1
    unfold getStoreTier
    rw [if_neg (by norm_num), if_neg (by norm_num)]
    decide
  rw [hlim] at h2
  have hsum : sumOver [0, 1] (fun i => cexStep1B i 2) = 2 := by decide
  omega

/-- C1 amended: the per-store capacity constraint is enforced in the
`logic4_oneStyle` `CoverageOptimizer` Step-1 MILP: every feasible
solution marks, at every target store, at most
`store_allocation_limits[j]` distinct scarce SKUs. (The
`ThreeStepOptimizer` Step-1 MILP enforces no such constraint.) -/
theorem covOptimizer_store_limit_enforced (scarce stores targets dfSKUs : List Nat)
    (A : Nat → Nat) (colorOf sizeOf : Nat → Nat) (K L : List Nat)
    (limits : Nat → Nat) (b : Nat → Nat → Nat)
    (hfeas : covStep1Feasible scarce stores targets dfSKUs A colorOf sizeOf
      K L limits b) :
    ∀ j ∈ stores, j ∈ targets → sumOver scarce (fun i => b i j) ≤ limits j :=
  hfeas.2.2.1

/-- Witness for C1's amended theorem: the all-zero assignment is feasible
for a one-SKU one-store instance, and the store-limit bound holds there. -/
theorem covOptimizer_store_limit_enforced_witness :
    covStep1Feasible [0] [0] [0] [0] (fun _ => 1) (fun _ => 0) (fun _ => 0)
      [0] [0] (fun _ => 1) (fun _ _ => 0) ∧
    (∀ j ∈ ([0] : List Nat), j ∈ ([0] : List Nat) →
      sumOver [0] (fun i => (fun _ _ => (0 : Nat)) i j) ≤ (fun _ => 1) j) := by
  have hfeas : covStep1Feasible [0] [0] [0] [0] (fun _ => 1) (fun _ => 0)
      (fun _ => 0) [0] [0] (fun _ => 1) (fun _ _ => 0) := by
    refine ⟨by decide, by decide, by decide,
      fun _ _ => 0, fun _ _ => 0, fun _ => 0, fun _ => 0, ?_⟩
    unfold covStep1CoverageCons
    decide
  exact ⟨hfeas, covOptimizer_store_limit_enforced [0] [0] [0] [0] (fun _ => 1)
    (fun _ => 0) (fun _ => 0) [0] [0] (fun _ => 1) (fun _ _ => 0) hfeas⟩

end DistFNF
